import Mathlib

/-
  Verification development for the oneDragon task/macro execution engine
  (source: fake_dungeon.py).  The Python code is shallowly embedded:

  * the multi-round retry scheduler `run_all_tasks_with_retry` is modelled as
    a fuel-indexed recursive function over an abstract task type, with the
    outcome of `run_single_task` for a given round abstracted as an oracle
    `runT : round -> task -> Bool` and the cooperative stop flag as an oracle
    `stop : round -> check-index -> Bool` (check 0 = top of the round, check
    j >= 1 = just before the j-th remaining task);
  * the step/macro interpreter (`_run_steps`, `run_single_task`,
    `try_return_home`, the action handler table) is modelled as one
    fuel-indexed structurally-recursive evaluator over an explicit run state
    (cooperative-clock, recovery flag, device-action trace, log counter),
    with matcher/device outcomes given by an environment of oracles;
  * `TemplateMatcher.wait_and_click` is modelled as a poll loop over an
    oracle of per-poll screenshot/imread/match outcomes;
  * `TemplateMatcher._apply_roi` is modelled exactly over integer/rational
    coordinates (Python `int()` truncation is `pyInt`);
  * macro expansion (`_expand_tasks_with_macros`/`_expand_single_task`) is
    modelled both over step values (error behaviour) and over a step heap
    (aliasing behaviour of `steps.extend(macro_steps)`).
-/

namespace OneDragon

/-! ## Task scheduler: `run_all_tasks_with_retry` (fake_dungeon.py 1070-1138)

`runT r t` abstracts the Boolean outcome of `run_single_task` for task `t`
in round `r`; `stop r j` abstracts `stop_flag.is_set()` polled at the top of
round `r` (`j = 0`) and just before the `j`-th remaining task (`j >= 1`).
`fuel` bounds the number of rounds the model may unfold; `none` means the
Python loop has not returned within that many rounds. -/

/-- One round of the retry loop: the `for task in remaining` body.  Returns
`none` when the stop flag is observed before some task (the Python
`return False` inside the loop), otherwise `some failed` with the failed
tasks in attempt order. -/
def runRound {α : Type} (runT : Nat → α → Bool) (stop : Nat → Nat → Bool)
    (r : Nat) : List α → Nat → Option (List α)
  | [], _ => some []
  | t :: ts, j =>
    if stop r j then none
    else
      match runRound runT stop r ts (j + 1) with
      | none => none
      | some failed => some (if runT r t then failed else t :: failed)

/-- The `while True` retry loop of `run_all_tasks_with_retry`, together with
the per-round trace `(round index, remaining tasks, failed tasks)` that the
Python code reports through `log_func`.  A round is recorded once its failed
set is known; rounds aborted by the stop flag are not recorded. -/
def retryRounds {α : Type} (runT : Nat → α → Bool) (stop : Nat → Nat → Bool)
    (maxRounds : Nat) : Nat → List α → Nat → Option Bool × List (Nat × List α × List α)
  | 0, _, _ => (none, [])
  | fuel + 1, remaining, roundIdx =>
    if stop roundIdx 0 then (some false, [])
    else
      match runRound runT stop roundIdx remaining 1 with
      | none => (some false, [])
      | some failed =>
        if failed.isEmpty then (some true, [(roundIdx, remaining, failed)])
        else if 0 < maxRounds ∧ maxRounds ≤ roundIdx then
          (some false, [(roundIdx, remaining, failed)])
        else
          let rest := retryRounds runT stop maxRounds fuel failed (roundIdx + 1)
          (rest.1, (roundIdx, remaining, failed) :: rest.2)

/-- `DungeonAutomation.run_all_tasks_with_retry`: empty task list returns
`True` immediately, otherwise the retry loop starts at round 1. -/
def run_all_tasks_with_retry {α : Type} (runT : Nat → α → Bool)
    (stop : Nat → Nat → Bool) (maxRounds : Nat) (tasks : List α) (fuel : Nat) :
    Option Bool × List (Nat × List α × List α) :=
  if tasks.isEmpty then (some true, [])
  else retryRounds runT stop maxRounds fuel tasks 1

/-- A stop flag that is never set (`stop_flag is None` in Python). -/
def noStop : Nat → Nat → Bool := fun _ _ => false

/-- `failedAfter runT remaining lo n` is the set of still-failing tasks after
running rounds `lo, lo+1, ..., lo+n-1` on `remaining` with no cancellation:
each round keeps exactly the tasks whose run failed. -/
def failedAfter {α : Type} (runT : Nat → α → Bool) (remaining : List α)
    (lo : Nat) : Nat → List α
  | 0 => remaining
  | n + 1 => (failedAfter runT remaining lo n).filter (fun t => !runT (lo + n) t)

/-! ## Step/macro interpreter (fake_dungeon.py 437-1054)

A `Step` models one step dictionary of the configuration.  Keys that are
absent in Python are `none`/defaults here; the `use\_macro` key is the field
`macroCall`.  Matcher timeouts, thresholds and ROIs only parametrise the
external matcher, whose outcome is abstracted by the `Env` oracles, indexed
by a logical clock that advances at every observation of the outside world
(stop-flag poll, matcher call, elapsed-time check). -/

/-- One configuration step (a Python dict).  `macroCall` is the optional
`use\_macro` key; `action` the optional `action` key.  Numeric fields keep
the Python defaults. -/
structure Step where
  macroCall : Option String := none
  action : Option String := none
  template : String := ""
  primary_template : Option String := none
  fallback_template : Option String := none
  ignore_fallback_fail : Bool := false
  click_times : Int := 1
  keycode : Option Int := none
  repeatCount : Int := 1
  templates : Option (List String) := none
  max_wait : Int := 0
  max_clicks : Int := 100
  max_duration : Int := 0
deriving DecidableEq, Repr

/-- A device action with an observable effect on the device (screenshots are
observe-only and not recorded). -/
inductive Act where
  | tap (x y : Int)
  | key (code : Int)
deriving DecidableEq, Repr

/-- Mutable run state: the logical clock of external observations, the
`_in_return_home` re-entrancy flag, the trace of device actions issued so
far (in order), and a count of log lines. -/
structure St where
  clock : Nat := 0
  inReturnHome : Bool := false
  acts : List Act := []
  logs : Nat := 0
deriving DecidableEq, Repr

/-- Oracles for the outside world.  `stop t` is the stop flag observed at
clock `t`; `found t tpl` whether the matcher finds `tpl` within the timeout
of the call made at clock `t` (and `pos t tpl` the reported centre);
`foundAny`/`posAny` the same for the multi-template variant; `timeUp t` the
outcome of an elapsed-time budget comparison made at clock `t`. -/
structure Env where
  stop : Nat → Bool
  found : Nat → String → Bool
  pos : Nat → String → Int × Int
  foundAny : Nat → List String → Option String
  posAny : Nat → Int × Int
  timeUp : Nat → Bool

/-- The macro table `self.macros` (`none` = key absent). -/
def Macros := String → Option (List Step)

/-- Append one log line. -/
def logb (st : St) : St := { st with logs := st.logs + 1 }

/-- Advance the observation clock. -/
def tick (st : St) : St := { st with clock := st.clock + 1 }

/-- Poll the stop flag (`stop_flag is not None and stop_flag.is_set()`). -/
def pollStop (env : Env) (st : St) : Bool × St := (env.stop st.clock, tick st)

/-- Observe one elapsed-time budget comparison. -/
def pollTime (env : Env) (st : St) : Bool × St := (env.timeUp st.clock, tick st)

/-- `TemplateMatcher.wait_for_template` as seen by a handler: an observe-only
probe; no taps, one clock advance. -/
def m_wait_for_template (env : Env) (tpl : String) (st : St) : Bool × St :=
  (env.found st.clock tpl, tick st)

/-- `TemplateMatcher.wait_and_click` as seen by a handler: if the template is
found within the timeout of the call, tap its centre `max 1 click_times` times
and succeed, else fail with no tap. -/
def m_wait_and_click (env : Env) (tpl : String) (click_times : Int) (st : St) :
    Bool × St :=
  if env.found st.clock tpl then
    let p := env.pos st.clock tpl
    (true, { tick st with
      acts := st.acts ++ List.replicate (max 1 click_times).toNat (Act.tap p.1 p.2) })
  else (false, tick st)

/-- `TemplateMatcher.wait_and_click_any` as seen by a handler: the oracle
names the winning template, which is tapped `max 1 click_times` times. -/
def m_wait_and_click_any (env : Env) (tpls : List String) (click_times : Int)
    (st : St) : (Bool × Option String) × St :=
  match env.foundAny st.clock tpls with
  | some nm =>
    ((true, some nm), { tick st with
      acts := st.acts ++
        List.replicate (max 1 click_times).toNat
          (Act.tap (env.posAny st.clock).1 (env.posAny st.clock).2) })
  | none => ((false, none), tick st)

/-- Python falsiness of an optional string (`None` or `""`). -/
def falsyStr : Option String → Bool
  | none => true
  | some s => s = ""

/-- The keys of `self._action_handlers` (fake_dungeon.py 474-486). -/
def registeredActions : List String :=
  ["wait_and_click", "sleep", "wait_and_click_loop", "wait_and_click_or",
   "wait_and_click_yes", "wait_and_click_no", "wait_and_click_any",
   "click_while_exists", "click_any_while_exists", "keyevent",
   "wait_for_template"]

/-- Exit reasons of the `while True` loop in `_handle_wait_and_click_loop`. -/
inductive LoopExit where
  | hit
  | stopped
  | budget
deriving DecidableEq, Repr

/-- The polling loop of `_handle_wait_and_click_loop`: stop-flag check, one
`wait_and_click` round, then (only when `max_wait > 0`) an elapsed-time
check.  `none` = the loop has not exited within `n` iterations. -/
def waitClickLoopIter (env : Env) (tpl : String) (clicks maxWait : Int) :
    Nat → St → Option (LoopExit × St)
  | 0, _ => none
  | n + 1, st =>
    let r := pollStop env st
    if r.1 then some (.stopped, r.2)
    else
      let r2 := m_wait_and_click env tpl clicks r.2
      if r2.1 then some (.hit, r2.2)
      else if 0 < maxWait then
        let r3 := pollTime env r2.2
        if r3.1 then some (.budget, r3.2)
        else waitClickLoopIter env tpl clicks maxWait n (logb r3.2)
      else waitClickLoopIter env tpl clicks maxWait n (logb r2.2)

/-- Exit reasons of the loops in `_handle_click_while_exists` and
`_handle_click_any_while_exists`. -/
inductive ClearExit where
  | cleared
  | stopped
  | clicksCap
  | durationCap
deriving DecidableEq, Repr

/-- The loop of `_handle_click_while_exists`: stop check, one
`wait_and_click` round; a miss means the pattern is cleared; otherwise the
click counter grows and the `max_clicks` / `max_duration` caps are checked
(the duration check observes time only when `max_duration > 0`). -/
def clickWhileIter (env : Env) (tpl : String) (clicks maxClicks maxDuration : Int) :
    Nat → Int → St → Option (ClearExit × St)
  | 0, _, _ => none
  | n + 1, total, st =>
    let r := pollStop env st
    if r.1 then some (.stopped, r.2)
    else
      let r2 := m_wait_and_click env tpl clicks r.2
      if !r2.1 then some (.cleared, r2.2)
      else
        let total2 := total + clicks
        if 0 < maxClicks ∧ maxClicks ≤ total2 then some (.clicksCap, logb r2.2)
        else if 0 < maxDuration then
          let r3 := pollTime env (logb r2.2)
          if r3.1 then some (.durationCap, r3.2)
          else clickWhileIter env tpl clicks maxClicks maxDuration n total2 r3.2
        else clickWhileIter env tpl clicks maxClicks maxDuration n total2 (logb r2.2)

/-- The loop of `_handle_click_any_while_exists`, the multi-template variant
of `clickWhileIter`. -/
def clickAnyWhileIter (env : Env) (tpls : List String)
    (clicks maxClicks maxDuration : Int) : Nat → Int → St → Option (ClearExit × St)
  | 0, _, _ => none
  | n + 1, total, st =>
    let r := pollStop env st
    if r.1 then some (.stopped, r.2)
    else
      let r2 := m_wait_and_click_any env tpls clicks r.2
      if !r2.1.1 then some (.cleared, r2.2)
      else
        let total2 := total + clicks
        if 0 < maxClicks ∧ maxClicks ≤ total2 then some (.clicksCap, logb r2.2)
        else if 0 < maxDuration then
          let r3 := pollTime env (logb r2.2)
          if r3.1 then some (.durationCap, r3.2)
          else clickAnyWhileIter env tpls clicks maxClicks maxDuration n total2 r3.2
        else clickAnyWhileIter env tpls clicks maxClicks maxDuration n total2 (logb r2.2)

/-- The mutually recursive entry points of the interpreter, merged into one
fuel-indexed evaluator so that every recursive call decreases the fuel:
`steps l` is `_run_steps(l)`, `handler a s` one registered handler call,
`cond s mode` is `_handle_conditional_click`, `home` is `try_return_home`,
and `taskSteps l` the step loop of `run_single_task`. -/
inductive Job where
  | steps (l : List Step)
  | handler (a : String) (s : Step)
  | cond (s : Step) (mode : String)
  | home
  | taskSteps (l : List Step)

/-- The interpreter.  `none` means the Python code has not returned within
`fuel` nested calls (nontermination / stack exhaustion); for `home` the
returned Bool is a dummy `true` (Python `try_return_home` returns `None`).
Each case mirrors the corresponding Python block line by line. -/
def exec (env : Env) (macros : Macros) : Nat → Job → St → Option (Bool × St)
  | 0, _, _ => none
  | fuel + 1, job, st =>
    match job with
    | .steps [] => some (true, st)
    | .steps (step :: rest) =>
      let r := pollStop env st
      if r.1 then some (false, logb r.2)
      else
        match step.macroCall with
        | some nm =>
          match macros nm with
          | none => some (false, logb r.2)
          | some [] => some (false, logb r.2)
          | some (s0 :: ss) =>
            match exec env macros fuel (.steps (s0 :: ss)) (logb r.2) with
            | none => none
            | some (false, st2) => some (false, logb st2)
            | some (true, st2) => exec env macros fuel (.steps rest) st2
        | none =>
          match step.action with
          | some a =>
            if a ∈ registeredActions then
              match exec env macros fuel (.handler a step) r.2 with
              | none => none
              | some (false, st2) => some (false, logb st2)
              | some (true, st2) => exec env macros fuel (.steps rest) st2
            else exec env macros fuel (.steps rest) (logb r.2)
          | none => exec env macros fuel (.steps rest) (logb r.2)
    | .handler a step =>
      if a = "wait_and_click" then
        let r := m_wait_and_click env step.template step.click_times st
        if r.1 then some (true, r.2)
        else (exec env macros fuel .home (logb r.2)).map (fun h => (false, h.2))
      else if a = "sleep" then some (true, logb st)
      else if a = "wait_and_click_loop" then
        match waitClickLoopIter env step.template step.click_times step.max_wait
            fuel (logb st) with
        | none => none
        | some (.hit, st2) => some (true, logb st2)
        | some (.stopped, st2) => some (false, st2)
        | some (.budget, st2) =>
          (exec env macros fuel .home (logb st2)).map (fun h => (false, h.2))
      else if a = "wait_and_click_or" then exec env macros fuel (.cond step "or") st
      else if a = "wait_and_click_yes" then exec env macros fuel (.cond step "yes") st
      else if a = "wait_and_click_no" then exec env macros fuel (.cond step "no") st
      else if a = "wait_and_click_any" then
        match step.templates with
        | none => (exec env macros fuel .home (logb st)).map (fun h => (false, h.2))
        | some [] => (exec env macros fuel .home (logb st)).map (fun h => (false, h.2))
        | some (t0 :: ts) =>
          let r := m_wait_and_click_any env (t0 :: ts) step.click_times st
          if r.1.1 then some (true, logb r.2)
          else (exec env macros fuel .home (logb r.2)).map (fun h => (false, h.2))
      else if a = "click_while_exists" then
        match clickWhileIter env step.template step.click_times step.max_clicks
            step.max_duration fuel 0 (logb st) with
        | none => none
        | some (.cleared, st2) => some (true, logb st2)
        | some (.stopped, st2) => some (false, st2)
        | some (.clicksCap, st2) =>
          (exec env macros fuel .home (logb st2)).map (fun h => (false, h.2))
        | some (.durationCap, st2) =>
          (exec env macros fuel .home (logb st2)).map (fun h => (false, h.2))
      else if a = "click_any_while_exists" then
        match step.templates with
        | none => (exec env macros fuel .home (logb st)).map (fun h => (false, h.2))
        | some [] => (exec env macros fuel .home (logb st)).map (fun h => (false, h.2))
        | some (t0 :: ts) =>
          match clickAnyWhileIter env (t0 :: ts) step.click_times step.max_clicks
              step.max_duration fuel 0 (logb st) with
          | none => none
          | some (.cleared, st2) => some (true, logb st2)
          | some (.stopped, st2) => some (false, st2)
          | some (.clicksCap, st2) =>
            (exec env macros fuel .home (logb st2)).map (fun h => (false, h.2))
          | some (.durationCap, st2) =>
            (exec env macros fuel .home (logb st2)).map (fun h => (false, h.2))
      else if a = "keyevent" then
        match step.keycode with
        | none => some (true, logb st)
        | some k =>
          some (true, { logb st with
            acts := st.acts ++
              List.replicate (max 1 step.repeatCount).toNat (Act.key k) })
      else if a = "wait_for_template" then
        let r := m_wait_for_template env step.template (logb st)
        if r.1 then some (true, r.2)
        else (exec env macros fuel .home (logb r.2)).map (fun h => (false, h.2))
      else none
    | .cond step mode =>
      if falsyStr step.primary_template || falsyStr step.fallback_template then
        some (true, logb st)
      else
        let primary := step.primary_template.getD ""
        let fallback := step.fallback_template.getD ""
        let r := m_wait_for_template env primary (logb st)
        let has_primary := r.1
        let st1 := r.2
        if mode = "or" then
          let r2 :=
            if has_primary then
              m_wait_and_click env primary step.click_times (logb st1)
            else m_wait_and_click env fallback step.click_times (logb st1)
          if r2.1 then some (true, r2.2)
          else if step.ignore_fallback_fail then some (true, logb r2.2)
          else (exec env macros fuel .home (logb r2.2)).map (fun h => (false, h.2))
        else if mode = "yes" then
          if !has_primary then some (true, logb st1)
          else
            let r2 := m_wait_and_click env fallback step.click_times (logb st1)
            if r2.1 then some (true, r2.2)
            else if step.ignore_fallback_fail then some (true, logb r2.2)
            else (exec env macros fuel .home (logb r2.2)).map (fun h => (false, h.2))
        else if mode = "no" then
          if has_primary then some (true, logb st1)
          else
            let r2 := m_wait_and_click env fallback step.click_times (logb st1)
            if r2.1 then some (true, r2.2)
            else if step.ignore_fallback_fail then some (true, logb r2.2)
            else (exec env macros fuel .home (logb r2.2)).map (fun h => (false, h.2))
        else some (true, logb st)
    | .home =>
      if st.inReturnHome then some (true, logb st)
      else
        match macros "return_to_main" with
        | none => some (true, logb st)
        | some [] => some (true, logb st)
        | some (h0 :: hs) =>
          let old := st.inReturnHome
          match exec env macros fuel (.steps (h0 :: hs))
              { logb st with inReturnHome := true } with
          | none => none
          | some (_, st2) => some (true, { st2 with inReturnHome := old })
    | .taskSteps [] => some (true, st)
    | .taskSteps (step :: rest) =>
      let r := pollStop env st
      if r.1 then some (false, logb r.2)
      else
        match step.macroCall with
        | some nm =>
          match macros nm with
          | none =>
            (exec env macros fuel .home (logb r.2)).map (fun h => (false, h.2))
          | some [] =>
            (exec env macros fuel .home (logb r.2)).map (fun h => (false, h.2))
          | some (s0 :: ss) =>
            match exec env macros fuel (.steps (s0 :: ss)) (logb r.2) with
            | none => none
            | some (false, st2) =>
              (exec env macros fuel .home (logb st2)).map (fun h => (false, h.2))
            | some (true, st2) => exec env macros fuel (.taskSteps rest) st2
        | none =>
          match step.action with
          | some a =>
            if a ∈ registeredActions then
              match exec env macros fuel (.handler a step) r.2 with
              | none => none
              | some (false, st2) => some (false, st2)
              | some (true, st2) => exec env macros fuel (.taskSteps rest) st2
            else exec env macros fuel (.taskSteps rest) (logb r.2)
          | none => exec env macros fuel (.taskSteps rest) (logb r.2)

/-- `DungeonAutomation._run_steps`. -/
def _run_steps (env : Env) (macros : Macros) (fuel : Nat) (steps : List Step)
    (st : St) : Option (Bool × St) :=
  exec env macros fuel (.steps steps) st

/-- `DungeonAutomation.try_return_home` (returns no Boolean in Python). -/
def try_return_home (env : Env) (macros : Macros) (fuel : Nat) (st : St) :
    Option St :=
  (exec env macros fuel .home st).map (fun h => h.2)

/-- A named task: `{"name": ..., "steps": [...]}`. -/
structure DTask where
  name : String := ""
  steps : List Step := []
deriving DecidableEq, Repr

/-- `DungeonAutomation.run_single_task`: start log line, the step loop, and
a completion log line on success. -/
def run_single_task (env : Env) (macros : Macros) (fuel : Nat) (t : DTask)
    (st : St) : Option (Bool × St) :=
  match exec env macros fuel (.taskSteps t.steps) (logb st) with
  | none => none
  | some (true, st2) => some (true, logb st2)
  | some (false, st2) => some (false, st2)

/-- `DungeonAutomation.run_macro_by_name`: a missing or empty macro fails
immediately; otherwise the macro body runs through `_run_steps`. -/
def run_macro_by_name (env : Env) (macros : Macros) (fuel : Nat) (nm : String)
    (st : St) : Option (Bool × St) :=
  match macros nm with
  | none => some (false, logb st)
  | some [] => some (false, logb st)
  | some (s0 :: ss) =>
    match _run_steps env macros fuel (s0 :: ss) (logb st) with
    | none => none
    | some (ok, st2) => some (ok, logb st2)

/-! ## `TemplateMatcher.wait_and_click` (fake_dungeon.py 253-304)

The poll loop is modelled per poll iteration: `shotOk i` is the outcome of
`adb.screenshot` at poll `i`, `imgOk i` that of `cv2.imread`, and `find i`
the template-match result (the centre position when the score reaches the
threshold).  The remaining poll budget before the timeout is the fuel. -/

/-- Per-poll outcomes of screenshot, imread and template matching. -/
structure MatchEnv where
  shotOk : Nat → Bool
  imgOk : Nat → Bool
  find : Nat → Option (Int × Int)

/-- `TemplateMatcher.wait_and_click`: poll until the template is found or
the budget of `n` polls is exhausted; on a find at centre `p`, tap `p`
`max 1 click_times` times and return `true`; on timeout return `false`
having issued no tap.  Returns the Boolean result and the taps issued. -/
def wait_and_click (menv : MatchEnv) (click_times : Int) :
    Nat → Nat → Bool × List Act
  | 0, _ => (false, [])
  | n + 1, i =>
    if !menv.shotOk i then wait_and_click menv click_times n (i + 1)
    else if !menv.imgOk i then wait_and_click menv click_times n (i + 1)
    else
      match menv.find i with
      | some p =>
        (true, List.replicate (max 1 click_times).toNat (Act.tap p.1 p.2))
      | none => wait_and_click menv click_times n (i + 1)

/-- The match outcome of poll `i` (a successful screenshot and imread
followed by the template search). -/
def pollHit (menv : MatchEnv) (i : Nat) : Option (Int × Int) :=
  if menv.shotOk i then (if menv.imgOk i then menv.find i else none) else none

/-- First successful poll outcome within `n` polls starting at poll `i`. -/
def firstHit (menv : MatchEnv) : Nat → Nat → Option (Int × Int)
  | 0, _ => none
  | n + 1, i =>
    match pollHit menv i with
    | some p => some p
    | none => firstHit menv n (i + 1)

/-! ## `TemplateMatcher._apply_roi` (fake_dungeon.py 135-169)

Images carry their height, width and a pixel function; ROIs are either
absolute integer boxes or fractional rational boxes (`roi_mode = "rel"`;
any other mode string takes the absolute branch, which `Roi.abs` models).
Python `int()` truncation toward zero is `pyInt`. -/

/-- A grayscale image: dimensions and pixel values. -/
structure Gray where
  h : Nat
  w : Nat
  px : Nat → Nat → Int

/-- A region of interest: absolute pixel box or fractional (0..1) box. -/
inductive Roi where
  | abs (x1 y1 x2 y2 : Int)
  | rel (x1 y1 x2 y2 : Rat)

/-- Python `int()` on a rational: truncation toward zero. -/
def pyInt (q : Rat) : Int := if 0 ≤ q then ⌊q⌋ else -⌊-q⌋

/-- Convert an ROI to pixel coordinates `(x1, y1, x2, y2)` (the `roi_mode`
branch of `_apply_roi`, before clamping). -/
def roiPixelBox (g : Gray) (roi : Roi) : Int × Int × Int × Int :=
  match roi with
  | .abs x1 y1 x2 y2 => (x1, y1, x2, y2)
  | .rel x1r y1r x2r y2r =>
    (pyInt (x1r * g.w), pyInt (y1r * g.h), pyInt (x2r * g.w), pyInt (y2r * g.h))

/-- `max(0, min(hi, v))`: the clamping applied to each ROI coordinate. -/
def clampTo (hi v : Int) : Int := max 0 (min hi v)

/-- The sub-image `g[y1:y2, x1:x2]` (coordinates already clamped into
bounds, so `toNat` is exact). -/
def cropG (g : Gray) (x1 y1 x2 y2 : Int) : Gray :=
  { h := (y2 - y1).toNat, w := (x2 - x1).toNat,
    px := fun i j => g.px (y1.toNat + i) (x1.toNat + j) }

/-- `TemplateMatcher._apply_roi`: returns `(region, offset_x, offset_y)`.
`none` ROI, or a clamped box with non-positive width or height, degrades to
the whole image with zero offsets. -/
def _apply_roi (g : Gray) (roi : Option Roi) : Gray × Int × Int :=
  match roi with
  | none => (g, 0, 0)
  | some r =>
    let b := roiPixelBox g r
    let x1 := clampTo g.w b.1
    let y1 := clampTo g.h b.2.1
    let x2 := clampTo g.w b.2.2.1
    let y2 := clampTo g.h b.2.2.2
    if x2 ≤ x1 ∨ y2 ≤ y1 then (g, 0, 0)
    else (cropG g x1 y1 x2 y2, x1, y1)

/-! ## Macro expansion (fake_dungeon.py 491-513)

`_expand_single_task` walks the steps of the task in order and replaces each
step whose `use\_macro` key is present by the steps of the macro, raising
`ValueError` (called `UndefinedMacro` in the spec) at the first reference whose
name is not a key of the macro table (`not in self.macros` is key
membership, so a macro defined with an empty step list does not raise). -/

/-- The step-expansion loop of `_expand_single_task`. -/
def expandSteps (macros : Macros) : List Step → Except String (List Step)
  | [] => .ok []
  | s :: rest =>
    match s.macroCall with
    | some nm =>
      match macros nm with
      | none => .error nm
      | some ms =>
        match expandSteps macros rest with
        | .error e => .error e
        | .ok tail => .ok (ms ++ tail)
    | none =>
      match expandSteps macros rest with
      | .error e => .error e
      | .ok tail => .ok (s :: tail)

/-- `DungeonAutomation._expand_single_task`. -/
def _expand_single_task (macros : Macros) (t : DTask) : Except String DTask :=
  match expandSteps macros t.steps with
  | .error e => .error e
  | .ok steps => .ok { t with steps := steps }

/-- `DungeonAutomation._expand_tasks_with_macros` (run during `__init__`,
before any action handler can issue a device tap or template match). -/
def _expand_tasks_with_macros (macros : Macros) : List DTask → Except String (List DTask)
  | [] => .ok []
  | t :: ts =>
    match _expand_single_task macros t with
    | .error e => .error e
    | .ok t2 =>
      match _expand_tasks_with_macros macros ts with
      | .error e => .error e
      | .ok ts2 => .ok (t2 :: ts2)

/-! ## Heap-level macro expansion (aliasing of step objects)

In Python, step dictionaries are heap objects and lists hold references.
`steps.extend(macro_steps)` appends the step *references* of the macro — a
shallow copy of the list, not copies of the step objects.  The heap model
makes this observable: a heap maps step ids to step values, macro bodies
and task step lists are lists of ids, and expansion manipulates ids. -/

/-- The expansion loop of `_expand_single_task` at the heap level: a step id
whose object has the `use\_macro` key is replaced by the id list of the macro
itself (`steps.extend(macro_steps)` copies references, not objects). -/
def expandIdsHeap (heap : Nat → Step) (macroIds : String → Option (List Nat)) :
    List Nat → Except String (List Nat)
  | [] => .ok []
  | i :: rest =>
    match (heap i).macroCall with
    | some nm =>
      match macroIds nm with
      | none => .error nm
      | some ids =>
        match expandIdsHeap heap macroIds rest with
        | .error e => .error e
        | .ok tail => .ok (ids ++ tail)
    | none =>
      match expandIdsHeap heap macroIds rest with
      | .error e => .error e
      | .ok tail => .ok (i :: tail)

/-! ## Concrete instances used by scenario theorems and witnesses -/

/-- The retry scenario of the spec: task 1 always succeeds, task 2 fails in
round 1 and succeeds from round 2 on, task 3 always fails. -/
def scenOracle : Nat → Nat → Bool :=
  fun r t => if t = 1 then true else if t = 2 then decide (2 ≤ r) else false

/-- An environment in which the stop flag is never set, no template is ever
found and no time budget expires. -/
def quietEnv : Env :=
  { stop := fun _ => false, found := fun _ _ => false, pos := fun _ _ => (0, 0),
    foundAny := fun _ _ => none, posAny := fun _ => (0, 0), timeUp := fun _ => false }

/-- A plain `sleep` step. -/
def sleepStep : Step := { action := some "sleep" }

/-- A step whose action kind is not in the handler table. -/
def unknownStep : Step := { action := some "frobnicate" }

/-- A step referencing macro `m`. -/
def refMStep : Step := { macroCall := some "m" }

/-- A conditional-click step in mode `yes`. -/
def yesStep : Step :=
  { action := some "wait_and_click_yes", primary_template := some "p",
    fallback_template := some "q" }

/-- A macro table with only `return_to_main`, holding one `sleep` step. -/
def rtmMacros : Macros :=
  fun nm => if nm = "return_to_main" then some [sleepStep] else none

/-- A macro table in which macro `m` is defined with an empty step list. -/
def emptyMMacros : Macros := fun nm => if nm = "m" then some [] else none

/-- A macro table in which `return_to_main` is defined but empty. -/
def rtmEmptyMacros : Macros :=
  fun nm => if nm = "return_to_main" then some [] else none

/-- A match environment whose first poll already finds the template at
centre `(5, 6)`. -/
def hitMenv : MatchEnv :=
  { shotOk := fun _ => true, imgOk := fun _ => true, find := fun _ => some (5, 6) }

/-- A 10 x 20 all-zero grayscale image. -/
def g0 : Gray := { h := 10, w := 20, px := fun _ _ => 0 }

/-- The heap of the aliasing counterexample: id 0 is a plain `sleep` step,
all other ids reference macro `m`. -/
def heap0 : Nat → Step := fun i => if i = 0 then sleepStep else refMStep

/-- The macro-id table of the aliasing counterexample: macro `m` is the
one-step body `[0]`. -/
def macroIds0 : String → Option (List Nat) :=
  fun nm => if nm = "m" then some [0] else none

/-- The mutated step object written into the heap at id 0. -/
def mutStep : Step := { action := some "sleep", click_times := 99 }

theorem runRound_noStop {α : Type} (runT : Nat → α → Bool) (r : Nat) :
    ∀ (ts : List α) (j : Nat),
      runRound runT noStop r ts j = some (ts.filter (fun t => !runT r t)) := by
  intro ts
  induction ts with
  | nil => intro j; rfl
  | cons t ts ih =>
    intro j
    simp only [runRound, noStop, Bool.false_eq_true, if_false, ih (j + 1),
      List.filter_cons]
    cases h : runT r t <;> simp [h]

theorem failedAfter_shift {α : Type} (runT : Nat → α → Bool)
    (remaining : List α) (lo : Nat) : ∀ n : Nat,
      failedAfter runT remaining lo (n + 1) =
        failedAfter runT (remaining.filter (fun t => !runT lo t)) (lo + 1) n := by
  intro n
  induction n with
  | zero => simp [failedAfter]
  | succ n ih =>
    show (failedAfter runT remaining lo (n + 1)).filter _ = _
    rw [ih]
    show _ = (failedAfter runT (remaining.filter fun t => !runT lo t) (lo + 1) n).filter
      (fun t => !runT (lo + 1 + n) t)
    have : lo + (n + 1) = lo + 1 + n := by omega
    rw [this]

theorem failedAfter_empty_mono {α : Type} (runT : Nat → α → Bool)
    (remaining : List α) (lo : Nat) {n : Nat}
    (h : failedAfter runT remaining lo n = []) :
    ∀ k, failedAfter runT remaining lo (n + k) = [] := by
  intro k
  induction k with
  | zero => simpa using h
  | succ k ih =>
    show (failedAfter runT remaining lo (n + k)).filter _ = []
    rw [ih]
    rfl

theorem retryRounds_true_iff {α : Type} (runT : Nat → α → Bool) (maxRounds : Nat)
    (hm : 0 < maxRounds) :
    ∀ (fuel : Nat) (remaining : List α) (roundIdx : Nat),
      1 ≤ roundIdx → roundIdx ≤ maxRounds → maxRounds + 1 ≤ roundIdx + fuel →
      ((retryRounds runT noStop maxRounds fuel remaining roundIdx).1 = some true ↔
        ∃ n, roundIdx + n ≤ maxRounds ∧
          failedAfter runT remaining roundIdx (n + 1) = []) := by
  intro fuel
  induction fuel with
  | zero => intro remaining roundIdx h1 h2 h3; omega
  | succ f ih =>
    intro remaining roundIdx h1 h2 h3
    have hr := runRound_noStop runT roundIdx remaining 1
    simp only [retryRounds, noStop, Bool.false_eq_true, if_false, hr]
    set failed := remaining.filter (fun t => !runT roundIdx t) with hfail
    have hfa1 : failedAfter runT remaining roundIdx 1 = failed := by
      simp [failedAfter, hfail]
    by_cases hemp : failed.isEmpty
    · simp only [hemp, if_true]
      constructor
      · intro _
        exact ⟨0, by omega, by rw [hfa1]; exact List.isEmpty_iff.mp hemp⟩
      · intro _; trivial
    · simp only [hemp, Bool.false_eq_true, if_false]
      by_cases hlim : 0 < maxRounds ∧ maxRounds ≤ roundIdx
      · simp only [hlim, if_true]
        constructor
        · intro h; cases h
        · rintro ⟨n, hn1, hn2⟩
          have hn0 : n = 0 := by omega
          rw [hn0, hfa1] at hn2
          rw [hn2] at hemp
          simp at hemp
      · simp only [hlim, if_false]
        have hlt : roundIdx < maxRounds := by omega
        have := ih failed (roundIdx + 1) (by omega) (by omega) (by omega)
        rw [this]
        constructor
        · rintro ⟨n, hn1, hn2⟩
          refine ⟨n + 1, by omega, ?_⟩
          rw [failedAfter_shift]
          exact hn2
        · rintro ⟨n, hn1, hn2⟩
          cases n with
          | zero =>
            rw [hfa1] at hn2
            rw [hn2] at hemp
            simp at hemp
          | succ m =>
            refine ⟨m, by omega, ?_⟩
            rw [failedAfter_shift] at hn2
            exact hn2

theorem retryRounds_total {α : Type} (runT : Nat → α → Bool) (maxRounds : Nat)
    (hm : 0 < maxRounds) :
    ∀ (fuel : Nat) (remaining : List α) (roundIdx : Nat),
      roundIdx ≤ maxRounds → maxRounds + 1 ≤ roundIdx + fuel →
      (retryRounds runT noStop maxRounds fuel remaining roundIdx).1 ≠ none := by
  intro fuel
  induction fuel with
  | zero => intro remaining roundIdx h2 h3; omega
  | succ f ih =>
    intro remaining roundIdx h2 h3
    have hr := runRound_noStop runT roundIdx remaining 1
    simp only [retryRounds, noStop, Bool.false_eq_true, if_false, hr]
    set failed := remaining.filter (fun t => !runT roundIdx t) with hfail
    by_cases hemp : failed.isEmpty
    · simp [hemp]
    · simp only [hemp, if_false]
      by_cases hlim : 0 < maxRounds ∧ maxRounds ≤ roundIdx
      · simp [hlim]
      · simp only [hlim, if_false]
        exact ih failed (roundIdx + 1) (by omega) (by omega)

theorem retryRounds_maxzero {α : Type} (runT : Nat → α → Bool) :
    ∀ (fuel : Nat) (remaining : List α) (roundIdx : Nat),
      (retryRounds runT noStop 0 fuel remaining roundIdx).1 ≠ some false := by
  intro fuel
  induction fuel with
  | zero => intro remaining roundIdx; simp [retryRounds]
  | succ f ih =>
    intro remaining roundIdx
    have hr := runRound_noStop runT roundIdx remaining 1
    simp only [retryRounds, noStop, Bool.false_eq_true, if_false, hr]
    set failed := remaining.filter (fun t => !runT roundIdx t) with hfail
    by_cases hemp : failed.isEmpty
    · simp [hemp]
    · have hlim : ¬ (0 < 0 ∧ 0 ≤ roundIdx) := by omega
      simp only [hemp, if_false, hlim]
      exact ih failed (roundIdx + 1)

theorem retryRounds_trace {α : Type} (runT : Nat → α → Bool) (maxRounds : Nat) :
    ∀ (fuel : Nat) (remaining : List α) (roundIdx : Nat) (i : Nat),
      i < (retryRounds runT noStop maxRounds fuel remaining roundIdx).2.length →
      (retryRounds runT noStop maxRounds fuel remaining roundIdx).2.get? i =
        some (roundIdx + i, failedAfter runT remaining roundIdx i,
          failedAfter runT remaining roundIdx (i + 1)) := by
  intro fuel
  induction fuel with
  | zero => intro remaining roundIdx i hi; simp [retryRounds] at hi
  | succ f ih =>
    intro remaining roundIdx i
    have hr := runRound_noStop runT roundIdx remaining 1
    simp only [retryRounds, noStop, Bool.false_eq_true, if_false, hr]
    set failed := remaining.filter (fun t => !runT roundIdx t) with hfail
    have hentry : (roundIdx, remaining, failed) =
        (roundIdx + 0, failedAfter runT remaining roundIdx 0,
          failedAfter runT remaining roundIdx 1) := by
      simp [failedAfter, hfail]
    by_cases hemp : failed.isEmpty
    · simp only [hemp, if_true]
      intro hi
      have hi0 : i = 0 := by
        simp only [List.length_singleton] at hi
        omega
      subst hi0
      simpa using hentry
    · simp only [hemp, Bool.false_eq_true, if_false]
      by_cases hlim : 0 < maxRounds ∧ maxRounds ≤ roundIdx
      · simp only [if_pos hlim]
        intro hi
        have hi0 : i = 0 := by
          try simp only [List.length_singleton] at hi
          omega
        subst hi0
        simpa using hentry
      · simp only [if_neg hlim]
        intro hi
        cases i with
        | zero => simpa using hentry
        | succ i =>
          simp only [List.get?_cons_succ]
          simp only [List.length_cons, Nat.add_lt_add_iff_right] at hi
          rw [ih failed (roundIdx + 1) i hi]
          have h1 : roundIdx + 1 + i = roundIdx + (i + 1) := by omega
          rw [h1, ← failedAfter_shift, ← failedAfter_shift]

/-! ## Claim theorems -/

/-- C1: `run_all_tasks_with_retry` returns true iff some round ends with an
empty failed set before the round limit is reached; with `max_rounds = 0`
it never stops because of a round count; with `max_rounds > 0` and enough
fuel it always returns, and returns false once the round index reaches
`max_rounds` while failures remain; the stop flag observed at the top of a
round or between tasks makes it return false immediately; and the
three-task scenario (`T1` succeeds, `T2` fails round 1 then succeeds, `T3`
always fails, `max_rounds = 3`) yields result false with failed sets
`{T2,T3}`, `{T3}`, `{T3}` over the three rounds. -/
theorem C1_run_all_tasks_with_retry_semantics :
    (∀ (α : Type) (runT : Nat → α → Bool) (maxRounds fuel : Nat) (tasks : List α),
        0 < maxRounds → maxRounds ≤ fuel →
        ((run_all_tasks_with_retry runT noStop maxRounds tasks fuel).1 = some true ↔
          ∃ r, 1 ≤ r ∧ r ≤ maxRounds ∧ failedAfter runT tasks 1 r = [])) ∧
    (∀ (α : Type) (runT : Nat → α → Bool) (maxRounds fuel : Nat) (tasks : List α),
        0 < maxRounds → maxRounds ≤ fuel →
        (run_all_tasks_with_retry runT noStop maxRounds tasks fuel).1 ≠ none) ∧
    (∀ (α : Type) (runT : Nat → α → Bool) (fuel : Nat) (tasks : List α),
        (run_all_tasks_with_retry runT noStop 0 tasks fuel).1 ≠ some false) ∧
    (∀ (α : Type) (runT : Nat → α → Bool) (stop : Nat → Nat → Bool)
        (maxRounds fuel roundIdx : Nat) (remaining : List α),
        stop roundIdx 0 = true →
        (retryRounds runT stop maxRounds (fuel + 1) remaining roundIdx).1 = some false) ∧
    (∀ (α : Type) (runT : Nat → α → Bool) (stop : Nat → Nat → Bool)
        (maxRounds fuel roundIdx : Nat) (remaining : List α),
        stop roundIdx 0 = false →
        runRound runT stop roundIdx remaining 1 = none →
        (retryRounds runT stop maxRounds (fuel + 1) remaining roundIdx).1 = some false) ∧
    run_all_tasks_with_retry scenOracle noStop 3 [1, 2, 3] 10 =
      (some false, [(1, [1, 2, 3], [2, 3]), (2, [2, 3], [3]), (3, [3], [3])]) := by
  refine ⟨?_, ?_, ?_, ?_, ?_, ?_⟩
  · intro α runT maxRounds fuel tasks hm hfuel
    by_cases htasks : tasks.isEmpty
    · have htasks2 : tasks = [] := List.isEmpty_iff.mp htasks
      subst htasks2
      simp only [run_all_tasks_with_retry, List.isEmpty_nil, if_true]
      constructor
      · intro _
        exact ⟨1, le_refl 1, hm, rfl⟩
      · intro _; trivial
    · simp only [run_all_tasks_with_retry, htasks, Bool.false_eq_true, if_false]
      rw [retryRounds_true_iff runT maxRounds hm fuel tasks 1 (le_refl 1) hm
        (by omega)]
      constructor
      · rintro ⟨n, hn1, hn2⟩
        exact ⟨n + 1, by omega, by omega, hn2⟩
      · rintro ⟨r, hr1, hr2, hr3⟩
        obtain ⟨n, rfl⟩ : ∃ n, r = n + 1 := ⟨r - 1, by omega⟩
        exact ⟨n, by omega, hr3⟩
  · intro α runT maxRounds fuel tasks hm hfuel
    by_cases htasks : tasks.isEmpty
    · simp [run_all_tasks_with_retry, htasks]
    · simp only [run_all_tasks_with_retry, htasks, Bool.false_eq_true, if_false]
      exact retryRounds_total runT maxRounds hm fuel tasks 1 hm (by omega)
  · intro α runT fuel tasks
    by_cases htasks : tasks.isEmpty
    · simp [run_all_tasks_with_retry, htasks]
    · simp only [run_all_tasks_with_retry, htasks, Bool.false_eq_true, if_false]
      exact retryRounds_maxzero runT fuel tasks 1
  · intro α runT stop maxRounds fuel roundIdx remaining h
    simp [retryRounds, h]
  · intro α runT stop maxRounds fuel roundIdx remaining h1 h2
    simp [retryRounds, h1, h2]
  · decide

/-- C1 witness: the top-of-round cancellation conjunct applied at a concrete
input (round 1, one task, flag set). -/
theorem C1_witness :
    (retryRounds (fun _ _ => false) (fun _ _ => true) 0 1 ([1] : List Nat) 1).1 =
      some false :=
  C1_run_all_tasks_with_retry_semantics.2.2.2.1 Nat (fun _ _ => false)
    (fun _ _ => true) 0 0 1 [1] rfl

/-- C2: the recorded rounds of `run_all_tasks_with_retry` (with no
cancellation) satisfy: round `1 + i` attempts exactly the failed set of
round `i` (entry `i` attempts `failedAfter i` and fails `failedAfter
(i+1)`), the failed set of each round is a sublist of what was attempted,
and a task that succeeds in round `r` never appears in the failed set of
round `r` or any later round (hence is never attempted again). -/
theorem C2_retry_set_shrinks_and_success_is_final :
    (∀ (α : Type) (runT : Nat → α → Bool) (maxRounds fuel : Nat)
        (tasks : List α) (i : Nat),
        i < (run_all_tasks_with_retry runT noStop maxRounds tasks fuel).2.length →
        (run_all_tasks_with_retry runT noStop maxRounds tasks fuel).2.get? i =
          some (1 + i, failedAfter runT tasks 1 i, failedAfter runT tasks 1 (i + 1))) ∧
    (∀ (α : Type) (runT : Nat → α → Bool) (tasks : List α) (lo n : Nat),
        (failedAfter runT tasks lo (n + 1)).Sublist (failedAfter runT tasks lo n)) ∧
    (∀ (α : Type) (runT : Nat → α → Bool) (tasks : List α) (t : α) (r k : Nat),
        1 ≤ r → runT r t = true → t ∉ failedAfter runT tasks 1 (r + k)) := by
  refine ⟨?_, ?_, ?_⟩
  · intro α runT maxRounds fuel tasks i
    by_cases htasks : tasks.isEmpty
    · simp [run_all_tasks_with_retry, htasks]
    · simp only [run_all_tasks_with_retry, htasks, Bool.false_eq_true, if_false]
      exact retryRounds_trace runT maxRounds fuel tasks 1 i
  · intro α runT tasks lo n
    exact List.filter_sublist _
  · intro α runT tasks t r k hr hrt
    induction k with
    | zero =>
      obtain ⟨m, rfl⟩ : ∃ m, r = m + 1 := ⟨r - 1, by omega⟩
      intro hmem
      have := (List.mem_filter.mp hmem).2
      have h1m : 1 + m = m + 1 := by omega
      rw [h1m, hrt] at this
      simp at this
    | succ k ih =>
      intro hmem
      have h1 : r + (k + 1) = (r + k) + 1 := by omega
      rw [h1] at hmem
      exact ih ((List.mem_filter.mp hmem).1)

/-- C2 witness: the never-reappears conjunct applied at a concrete input:
a task that succeeds in round 1 is not in the failed set after round 1. -/
theorem C2_witness :
    (7 : Nat) ∉ failedAfter (fun _ _ => true) [7] 1 (1 + 0) :=
  C2_retry_set_shrinks_and_success_is_final.2.2 Nat (fun _ _ => true) [7] 7 1 0
    (le_refl 1) rfl

/-- C3: `try_return_home` is re-entrancy-guarded and outcome-neutral: with
the `_in_return_home` flag already set it only logs and returns, touching
neither the flag nor the device; otherwise it sets the flag, runs the
steps of the recovery macro and restores the flag to its prior value (false)
whatever Boolean the steps produced, returning normally without propagating
their failure. -/
theorem C3_try_return_home_guarded_and_neutral :
    (∀ (env : Env) (macros : Macros) (fuel : Nat) (st : St),
        st.inReturnHome = true →
        try_return_home env macros (fuel + 1) st = some (logb st)) ∧
    (∀ (env : Env) (macros : Macros) (fuel : Nat) (st : St) (h0 : Step)
        (hs : List Step) (b : Bool) (st2 : St),
        st.inReturnHome = false →
        macros "return_to_main" = some (h0 :: hs) →
        _run_steps env macros fuel (h0 :: hs)
            { logb st with inReturnHome := true } = some (b, st2) →
        try_return_home env macros (fuel + 1) st =
          some { st2 with inReturnHome := false }) := by
  constructor
  · intro env macros fuel st h
    simp [try_return_home, exec, h]
  · intro env macros fuel st h0 hs b st2 h1 h2 h3
    simp only [_run_steps] at h3
    simp [try_return_home, exec, h1, h2, h3]

/-- C3 witness: the restore conjunct applied to the default state, a
one-sleep recovery macro and a quiet environment. -/
theorem C3_witness :
    try_return_home quietEnv rtmMacros 3 {} =
      some { clock := 1, inReturnHome := false, acts := [], logs := 2 } :=
  C3_try_return_home_guarded_and_neutral.2 quietEnv rtmMacros 2 {} sleepStep []
    true { clock := 1, inReturnHome := true, acts := [], logs := 2 }
    rfl (by decide) (by decide)

/-- C10: a macro defined with an empty step list behaves like an undefined
macro: a `use\_macro` step referencing it makes `_run_steps` fail the
sequence, `run_macro_by_name` on it returns false, and `try_return_home`
with an empty `return_to_main` macro only logs and performs no recovery —
none of the three treats the empty macro as a trivially successful empty
sequence. -/
theorem C10_empty_macro_behaves_as_undefined :
    (∀ (env : Env) (macros : Macros) (fuel : Nat) (st : St) (rest : List Step)
        (nm : String) (step : Step),
        step.macroCall = some nm →
        (macros nm = none ∨ macros nm = some []) →
        env.stop st.clock = false →
        _run_steps env macros (fuel + 1) (step :: rest) st =
          some (false, logb (tick st))) ∧
    (∀ (env : Env) (macros : Macros) (fuel : Nat) (st : St) (nm : String),
        (macros nm = none ∨ macros nm = some []) →
        run_macro_by_name env macros fuel nm st = some (false, logb st)) ∧
    (∀ (env : Env) (macros : Macros) (fuel : Nat) (st : St),
        st.inReturnHome = false →
        (macros "return_to_main" = none ∨ macros "return_to_main" = some []) →
        try_return_home env macros (fuel + 1) st = some (logb st)) := by
  refine ⟨?_, ?_, ?_⟩
  · intro env macros fuel st rest nm step hmc hm hstop
    cases hm with
    | inl h => simp [_run_steps, exec, pollStop, hstop, hmc, h]
    | inr h => simp [_run_steps, exec, pollStop, hstop, hmc, h]
  · intro env macros fuel st nm hm
    cases hm with
    | inl h => simp [run_macro_by_name, h]
    | inr h => simp [run_macro_by_name, h]
  · intro env macros fuel st h1 hm
    cases hm with
    | inl h => simp [try_return_home, exec, h1, h]
    | inr h => simp [try_return_home, exec, h1, h]

/-- C10 witness: `run_macro_by_name` on the empty macro `m` fails. -/
theorem C10_witness :
    run_macro_by_name quietEnv emptyMMacros 0 "m" {} =
      some (false, { clock := 0, inReturnHome := false, acts := [], logs := 1 }) :=
  C10_empty_macro_behaves_as_undefined.2.1 quietEnv emptyMMacros 0 {} "m"
    (Or.inr (by decide))

theorem taskSteps_all_unknown (env : Env) (macros : Macros)
    (hstop : ∀ n, env.stop n = false) :
    ∀ (steps : List Step) (fuel : Nat) (st : St),
      (∀ s ∈ steps, s.macroCall = none ∧
        ∀ a, s.action = some a → a ∉ registeredActions) →
      exec env macros (fuel + steps.length + 1) (.taskSteps steps) st =
        some (true, { st with
          clock := st.clock + steps.length
          logs := st.logs + steps.length }) := by
  intro steps
  induction steps with
  | nil => intro fuel st _; rfl
  | cons s rest ih =>
    intro fuel st hall
    obtain ⟨hmc, hact⟩ := hall s (List.mem_cons_self s rest)
    have hrest : ∀ s2 ∈ rest, s2.macroCall = none ∧
        ∀ a, s2.action = some a → a ∉ registeredActions :=
      fun s2 hs2 => hall s2 (List.mem_cons_of_mem s hs2)
    have hlen : fuel + (s :: rest).length + 1 = (fuel + rest.length + 1) + 1 := by
      simp [List.length_cons]; omega
    rw [hlen]
    have hskip : exec env macros ((fuel + rest.length + 1) + 1)
        (.taskSteps (s :: rest)) st =
        exec env macros (fuel + rest.length + 1) (.taskSteps rest)
          (logb (tick st)) := by
      cases hs : s.action with
      | none => simp [exec, pollStop, hstop, hmc, hs, tick, logb]
      | some a =>
        have hnot : (a ∈ registeredActions) = False := by
          simp [hact a hs]
        simp [exec, pollStop, hstop, hmc, hs, hnot, tick, logb]
    rw [hskip, ih fuel (logb (tick st)) hrest]
    simp only [tick, logb, List.length_cons]
    refine congrArg some (congrArg (Prod.mk true) ?_)
    refine St.mk.injEq .. |>.mpr ?_
    refine ⟨by omega, rfl, rfl, by omega⟩

/-- C6: an action kind with no registered handler is logged and skipped as a
no-op in both execution paths: in `_run_steps` and in the step loop of
`run_single_task`, the step only costs one stop-flag observation and one
log line and execution continues with the rest of the sequence; a whole
task of unknown-action steps therefore completes successfully. -/
theorem C6_unknown_action_skipped_in_both_paths :
    (∀ (env : Env) (macros : Macros) (fuel : Nat) (step : Step)
        (rest : List Step) (st : St),
        step.macroCall = none →
        (∀ a, step.action = some a → a ∉ registeredActions) →
        env.stop st.clock = false →
        _run_steps env macros (fuel + 1) (step :: rest) st =
          _run_steps env macros fuel rest (logb (tick st))) ∧
    (∀ (env : Env) (macros : Macros) (fuel : Nat) (step : Step)
        (rest : List Step) (st : St),
        step.macroCall = none →
        (∀ a, step.action = some a → a ∉ registeredActions) →
        env.stop st.clock = false →
        exec env macros (fuel + 1) (.taskSteps (step :: rest)) st =
          exec env macros fuel (.taskSteps rest) (logb (tick st))) ∧
    (∀ (env : Env) (macros : Macros) (fuel : Nat) (t : DTask) (st : St),
        (∀ n, env.stop n = false) →
        (∀ s ∈ t.steps, s.macroCall = none ∧
          ∀ a, s.action = some a → a ∉ registeredActions) →
        run_single_task env macros (fuel + t.steps.length + 1) t st =
          some (true, { st with
            clock := st.clock + t.steps.length
            logs := st.logs + t.steps.length + 2 })) := by
  refine ⟨?_, ?_, ?_⟩
  · intro env macros fuel step rest st hmc hact hstop
    cases hs : step.action with
    | none => simp [_run_steps, exec, pollStop, hstop, hmc, hs, tick, logb]
    | some a =>
      have hnot : (a ∈ registeredActions) = False := by
        simp [hact a hs]
      simp [_run_steps, exec, pollStop, hstop, hmc, hs, hnot, tick, logb]
  · intro env macros fuel step rest st hmc hact hstop
    cases hs : step.action with
    | none => simp [exec, pollStop, hstop, hmc, hs, tick, logb]
    | some a =>
      have hnot : (a ∈ registeredActions) = False := by
        simp [hact a hs]
      simp [exec, pollStop, hstop, hmc, hs, hnot, tick, logb]
  · intro env macros fuel t st hstop hall
    simp only [run_single_task]
    rw [taskSteps_all_unknown env macros hstop t.steps fuel (logb st) hall]
    simp only [logb]
    refine congrArg some (congrArg (Prod.mk true) ?_)
    refine St.mk.injEq .. |>.mpr ?_
    refine ⟨rfl, rfl, rfl, by omega⟩

/-- C6 witness: the `_run_steps` conjunct applied to a concrete unknown
action kind. -/
theorem C6_witness :
    _run_steps quietEnv rtmMacros 2 [unknownStep] {} =
      _run_steps quietEnv rtmMacros 1 [] (logb (tick {})) :=
  C6_unknown_action_skipped_in_both_paths.1 quietEnv rtmMacros 1 unknownStep []
    {} rfl
    (by intro a ha
        injection ha with h
        subst h
        decide)
    rfl

/-- C8: a conditional-click step in mode `yes` whose primary template is
not detected by the observe-only probe issues no tap and no key event and
succeeds: the whole step costs one stop-flag observation and one probe
(two clock advances, two log lines) and leaves the device-action trace and
the recovery flag untouched. -/
theorem C8_conditional_yes_primary_absent_is_noop :
    ∀ (env : Env) (macros : Macros) (fuel : Nat) (step : Step) (st : St)
      (p q : String),
      step.macroCall = none →
      step.action = some "wait_and_click_yes" →
      step.primary_template = some p → p ≠ "" →
      step.fallback_template = some q → q ≠ "" →
      env.stop st.clock = false →
      env.found (st.clock + 1) p = false →
      _run_steps env macros (fuel + 3) [step] st =
        some (true, { st with
          clock := st.clock + 2
          logs := st.logs + 2 }) := by
  intro env macros fuel step st p q hmc hact hp hpne hq hqne hstop hfound
  have hfp : falsyStr step.primary_template = false := by
    simp [falsyStr, hp, hpne]
  have hfq : falsyStr step.fallback_template = false := by
    simp [falsyStr, hq, hqne]
  have hgd : step.primary_template.getD "" = p := by simp [hp]
  have hdisp : exec env macros (fuel + 2) (.handler "wait_and_click_yes" step)
      (tick st) = exec env macros (fuel + 1) (.cond step "yes") (tick st) := rfl
  have hcond : exec env macros (fuel + 1) (.cond step "yes") (tick st) =
      some (true, { st with
        clock := st.clock + 2
        logs := st.logs + 2 }) := by
    conv_lhs => rw [exec]
    simp only [hfp, hfq, hgd, Bool.or_self, Bool.false_eq_true, if_false,
      m_wait_for_template, logb, tick]
    simp [hfound]
  simp only [_run_steps]
  conv_lhs => rw [exec]
  simp only [pollStop, tick, hstop, Bool.false_eq_true, if_false, hmc, hact]
  have hreg : "wait_and_click_yes" ∈ registeredActions := by decide
  rw [if_pos hreg]
  have htick : ({ st with clock := st.clock + 1 } : St) = tick st := rfl
  rw [htick, hdisp, hcond]
  rfl

/-- C8 witness: the theorem applied to the concrete `yes` step in the quiet
environment. -/
theorem C8_witness :
    _run_steps quietEnv rtmMacros 3 [yesStep] {} =
      some (true, { clock := 2, inReturnHome := false, acts := [], logs := 2 }) :=
  C8_conditional_yes_primary_absent_is_noop quietEnv rtmMacros 0 yesStep {}
    "p" "q" rfl rfl rfl (by decide) rfl (by decide) rfl rfl

theorem expandSteps_error_iff (macros : Macros) :
    ∀ steps : List Step,
      (∃ e, expandSteps macros steps = .error e) ↔
        ∃ s ∈ steps, ∃ nm, s.macroCall = some nm ∧ macros nm = none := by
  intro steps
  induction steps with
  | nil => simp [expandSteps]
  | cons s rest ih =>
    cases hmc : s.macroCall with
    | none =>
      cases hrest : expandSteps macros rest with
      | error e =>
        simp only [expandSteps, hmc, hrest]
        constructor
        · intro _
          obtain ⟨s2, hs2, nm, h1, h2⟩ := ih.mp ⟨e, hrest⟩
          exact ⟨s2, List.mem_cons_of_mem s hs2, nm, h1, h2⟩
        · intro _
          exact ⟨e, rfl⟩
      | ok tail =>
        simp only [expandSteps, hmc, hrest]
        constructor
        · rintro ⟨e, he⟩
          cases he
        · rintro ⟨s2, hs2, nm, h1, h2⟩
          rcases List.mem_cons.mp hs2 with h | h
          · subst h
            rw [hmc] at h1
            cases h1
          · obtain ⟨e, he⟩ := ih.mpr ⟨s2, h, nm, h1, h2⟩
            rw [hrest] at he
            cases he
    | some nm0 =>
      cases hm : macros nm0 with
      | none =>
        simp only [expandSteps, hmc, hm]
        constructor
        · intro _
          exact ⟨s, List.mem_cons_self s rest, nm0, hmc, hm⟩
        · intro _
          exact ⟨nm0, rfl⟩
      | some ms =>
        cases hrest : expandSteps macros rest with
        | error e =>
          simp only [expandSteps, hmc, hm, hrest]
          constructor
          · intro _
            obtain ⟨s2, hs2, nm, h1, h2⟩ := ih.mp ⟨e, hrest⟩
            exact ⟨s2, List.mem_cons_of_mem s hs2, nm, h1, h2⟩
          · intro _
            exact ⟨e, rfl⟩
        | ok tail =>
          simp only [expandSteps, hmc, hm, hrest]
          constructor
          · rintro ⟨e, he⟩
            cases he
          · rintro ⟨s2, hs2, nm, h1, h2⟩
            rcases List.mem_cons.mp hs2 with h | h
            · subst h
              rw [hmc] at h1
              injection h1 with h1
              subst h1
              rw [hm] at h2
              cases h2
            · obtain ⟨e, he⟩ := ih.mpr ⟨s2, h, nm, h1, h2⟩
              rw [hrest] at he
              cases he

theorem expand_single_error_iff (macros : Macros) (t : DTask) :
    (∃ e, _expand_single_task macros t = .error e) ↔
      ∃ s ∈ t.steps, ∃ nm, s.macroCall = some nm ∧ macros nm = none := by
  rw [← expandSteps_error_iff macros t.steps]
  cases h : expandSteps macros t.steps with
  | error e =>
    simp only [_expand_single_task, h]
    exact ⟨fun _ => ⟨e, rfl⟩, fun _ => ⟨e, rfl⟩⟩
  | ok out =>
    simp only [_expand_single_task, h]
    constructor
    · rintro ⟨e, he⟩
      cases he
    · rintro ⟨e, he⟩
      cases he

/-- C4: eager macro expansion fails fast exactly when some top-level task
step references a macro name absent from the macro table (the expansion is
a pure function evaluated during construction, before any handler can issue
a device action); when every referenced name is a key of the table —
including keys bound to empty step lists — expansion returns normally. -/
theorem C4_expansion_error_iff_undefined_reference :
    (∀ (macros : Macros) (tasks : List DTask),
        (∃ e, _expand_tasks_with_macros macros tasks = .error e) ↔
          ∃ t ∈ tasks, ∃ s ∈ t.steps, ∃ nm,
            s.macroCall = some nm ∧ macros nm = none) ∧
    (∀ (macros : Macros) (tasks : List DTask),
        (∀ t ∈ tasks, ∀ s ∈ t.steps, ∀ nm, s.macroCall = some nm →
          (macros nm).isSome) →
        ∃ out, _expand_tasks_with_macros macros tasks = .ok out) := by
  have main : ∀ (macros : Macros) (tasks : List DTask),
      (∃ e, _expand_tasks_with_macros macros tasks = .error e) ↔
        ∃ t ∈ tasks, ∃ s ∈ t.steps, ∃ nm,
          s.macroCall = some nm ∧ macros nm = none := by
    intro macros tasks
    induction tasks with
    | nil => simp [_expand_tasks_with_macros]
    | cons t ts ih =>
      cases ht : _expand_single_task macros t with
      | error e =>
        simp only [_expand_tasks_with_macros, ht]
        constructor
        · intro _
          obtain ⟨s, hs, nm, h1, h2⟩ :=
            (expand_single_error_iff macros t).mp ⟨e, ht⟩
          exact ⟨t, List.mem_cons_self t ts, s, hs, nm, h1, h2⟩
        · intro _
          exact ⟨e, rfl⟩
      | ok t2 =>
        cases hts : _expand_tasks_with_macros macros ts with
        | error e =>
          simp only [_expand_tasks_with_macros, ht, hts]
          constructor
          · intro _
            obtain ⟨t3, ht3, s, hs, nm, h1, h2⟩ := ih.mp ⟨e, hts⟩
            exact ⟨t3, List.mem_cons_of_mem t ht3, s, hs, nm, h1, h2⟩
          · intro _
            exact ⟨e, rfl⟩
        | ok ts2 =>
          simp only [_expand_tasks_with_macros, ht, hts]
          constructor
          · rintro ⟨e, he⟩
            cases he
          · rintro ⟨t3, ht3, s, hs, nm, h1, h2⟩
            rcases List.mem_cons.mp ht3 with h | h
            · subst h
              obtain ⟨e, he⟩ :=
                (expand_single_error_iff macros t3).mpr ⟨s, hs, nm, h1, h2⟩
              rw [ht] at he
              cases he
            · obtain ⟨e, he⟩ := ih.mpr ⟨t3, h, s, hs, nm, h1, h2⟩
              rw [hts] at he
              cases he
  refine ⟨main, ?_⟩
  intro macros tasks hall
  cases hres : _expand_tasks_with_macros macros tasks with
  | error e =>
    obtain ⟨t, ht, s, hs, nm, h1, h2⟩ := (main macros tasks).mp ⟨e, hres⟩
    have := hall t ht s hs nm h1
    rw [h2] at this
    cases this
  | ok out => exact ⟨out, rfl⟩

/-- C4 witness: the no-undefined-reference conjunct applied to one concrete
task with one plain step. -/
theorem C4_witness :
    ∃ out, _expand_tasks_with_macros rtmMacros
      [{ name := "A", steps := [sleepStep] }] = .ok out :=
  C4_expansion_error_iff_undefined_reference.2 rtmMacros
    [{ name := "A", steps := [sleepStep] }]
    (by
      intro t ht s hs nm hnm
      rw [List.mem_singleton] at ht
      subst ht
      simp only [List.mem_singleton] at hs
      subst hs
      simp [sleepStep] at hnm)

/-- C5 counterexample: expansion aliases step objects.  Two tasks whose
step list is `[1]` (a reference to macro `m` with body `[0]`) both expand
to the id list `[0]`; writing a new step object into the heap at id 0 —
an id inside the expanded list of the first task — changes the materialised
steps of the other task and the macro table entry, refuting "mutating a step
inside the step list of one expanded task can never change the steps of another task
or the macro table entry". -/
theorem C5_counterexample_expansion_aliases :
    expandIdsHeap heap0 macroIds0 [1] = .ok [0] ∧
    List.map (Function.update heap0 0 mutStep) [0] ≠ List.map heap0 [0] ∧
    ((macroIds0 "m").getD []).map (Function.update heap0 0 mutStep) ≠
      ((macroIds0 "m").getD []).map heap0 := by
  refine ⟨rfl, by decide, by decide⟩

/-- C5 (amended): top-level expansion produces a fresh list whose elements
are the very step ids of the source — each id in the output is an original
task-step id or an id taken verbatim from the body of a referenced macro, so
step objects are shared (aliased) with the macro table, and only the list
structure is new. -/
theorem C5_amended_expansion_shares_macro_ids :
    ∀ (heap : Nat → Step) (macroIds : String → Option (List Nat))
      (steps out : List Nat),
      expandIdsHeap heap macroIds steps = .ok out →
      ∀ i ∈ out, i ∈ steps ∨
        ∃ nm ids j, j ∈ steps ∧ (heap j).macroCall = some nm ∧
          macroIds nm = some ids ∧ i ∈ ids := by
  intro heap macroIds steps
  induction steps with
  | nil =>
    intro out hout i hi
    simp only [expandIdsHeap] at hout
    injection hout with hout
    subst hout
    cases hi
  | cons j rest ih =>
    intro out hout i hi
    rcases hmc : (heap j).macroCall with _ | nm0
    · simp only [expandIdsHeap, hmc] at hout
      cases hrest : expandIdsHeap heap macroIds rest with
      | error e =>
        rw [hrest] at hout
        cases hout
      | ok tail =>
        rw [hrest] at hout
        injection hout with hout
        subst hout
        rcases List.mem_cons.mp hi with h | h
        · subst h
          exact Or.inl (List.mem_cons_self i rest)
        · rcases ih tail hrest i h with h2 | ⟨nm, ids, j2, hj2, h3, h4, h5⟩
          · exact Or.inl (List.mem_cons_of_mem j h2)
          · exact Or.inr ⟨nm, ids, j2, List.mem_cons_of_mem j hj2, h3, h4, h5⟩
    · simp only [expandIdsHeap, hmc] at hout
      cases hm : macroIds nm0 with
      | none =>
        rw [hm] at hout
        cases hout
      | some ids0 =>
        rw [hm] at hout
        cases hrest : expandIdsHeap heap macroIds rest with
        | error e =>
          rw [hrest] at hout
          cases hout
        | ok tail =>
          rw [hrest] at hout
          injection hout with hout
          subst hout
          rcases List.mem_append.mp hi with h | h
          · exact Or.inr ⟨nm0, ids0, j, List.mem_cons_self j rest, hmc, hm, h⟩
          · rcases ih tail hrest i h with h2 | ⟨nm, ids, j2, hj2, h3, h4, h5⟩
            · exact Or.inl (List.mem_cons_of_mem j h2)
            · exact Or.inr ⟨nm, ids, j2, List.mem_cons_of_mem j hj2, h3, h4, h5⟩

/-- C5 witness: the amended theorem applied to the counterexample heap —
the id 0 in the expanded task came verbatim from macro `m`. -/
theorem C5_witness :
    0 ∈ ([1] : List Nat) ∨
      ∃ nm ids j, j ∈ ([1] : List Nat) ∧ (heap0 j).macroCall = some nm ∧
        macroIds0 nm = some ids ∧ 0 ∈ ids :=
  C5_amended_expansion_shares_macro_ids heap0 macroIds0 [1] [0] rfl 0
    (by decide)

theorem wait_and_click_firstHit (menv : MatchEnv) (ct : Int) :
    ∀ (n i : Nat),
      wait_and_click menv ct n i =
        match firstHit menv n i with
        | some p => (true, List.replicate (max 1 ct).toNat (Act.tap p.1 p.2))
        | none => (false, []) := by
  intro n
  induction n with
  | zero => intro i; rfl
  | succ n ih =>
    intro i
    simp only [wait_and_click, firstHit, pollHit]
    cases hs : menv.shotOk i with
    | false => simp [hs, ih (i + 1)]
    | true =>
      cases hi2 : menv.imgOk i with
      | false => simp [hs, hi2, ih (i + 1)]
      | true =>
        cases hf : menv.find i with
        | none => simp [hs, hi2, hf, ih (i + 1)]
        | some p => simp [hs, hi2, hf]

/-- C7 counterexample: with `click_times = 0` and the template found at the
first poll, `wait_and_click` returns true having issued one tap, not zero
taps — `max(1, click_times)` clamps the count from below, refuting "taps
the match centre exactly `click_times` times ... including
`click_times = 0`". -/
theorem C7_counterexample_zero_clicks_taps_once :
    (wait_and_click hitMenv 0 1 0).1 = true ∧
    (wait_and_click hitMenv 0 1 0).2 = [Act.tap 5 6] ∧
    (wait_and_click hitMenv 0 1 0).2.length ≠ 0 := by
  refine ⟨by decide, by decide, by decide⟩

/-- C7 (amended): `wait_and_click` is determined by the first successful
poll: if no poll within the budget finds the template it returns false with
no tap; if some poll finds it at centre `p` it returns true having tapped
`p` exactly `max 1 click_times` times — exactly `click_times` times when
`click_times ≥ 1`, and once when `click_times ≤ 0`. -/
theorem C7_amended_wait_and_click_taps :
    ∀ (menv : MatchEnv) (ct : Int) (n i : Nat),
      (wait_and_click menv ct n i =
        match firstHit menv n i with
        | some p => (true, List.replicate (max 1 ct).toNat (Act.tap p.1 p.2))
        | none => (false, [])) ∧
      (firstHit menv n i = none → wait_and_click menv ct n i = (false, [])) ∧
      (∀ p, firstHit menv n i = some p → 1 ≤ ct →
        (wait_and_click menv ct n i).2 =
          List.replicate ct.toNat (Act.tap p.1 p.2)) ∧
      (∀ p, firstHit menv n i = some p → ct ≤ 0 →
        (wait_and_click menv ct n i).2 = [Act.tap p.1 p.2]) := by
  intro menv ct n i
  refine ⟨wait_and_click_firstHit menv ct n i, ?_, ?_, ?_⟩
  · intro h
    rw [wait_and_click_firstHit, h]
  · intro p hp hct
    rw [wait_and_click_firstHit, hp]
    rw [max_eq_right hct]
  · intro p hp hct
    rw [wait_and_click_firstHit, hp]
    have h1 : max 1 ct = 1 := max_eq_left (by omega)
    rw [h1]
    rfl

/-- C7 witness: the exact-count conjunct at `click_times = 2` with a hit on
the first poll. -/
theorem C7_witness :
    (wait_and_click hitMenv 2 1 0).2 =
      List.replicate (2 : Int).toNat (Act.tap 5 6) :=
  (C7_amended_wait_and_click_taps hitMenv 2 1 0).2.2.1 (5, 6) (by decide)
    (by decide)

theorem clampTo_nonneg (hi v : Int) : 0 ≤ clampTo hi v := le_max_left 0 _

theorem clampTo_le (hi v : Int) (h : 0 ≤ hi) : clampTo hi v ≤ hi :=
  max_le h (min_le_left hi v)

/-- C9: `_apply_roi` never errors: with no ROI it returns the whole image
with zero offsets; when the pixel box of the ROI, clamped to the image bounds,
has non-positive width or height (reversed or out-of-bounds boxes, absolute
or fractional) it degrades to the whole image with zero offsets; otherwise
it returns the clamped sub-region, whose corners lie inside the image and
whose dimensions are positive, with the clamped top-left corner as the
offsets. -/
theorem C9_apply_roi_degrades_or_crops :
    ∀ (g : Gray) (r : Roi) (x1 y1 x2 y2 : Int),
      roiPixelBox g r = (x1, y1, x2, y2) →
      (_apply_roi g none = (g, 0, 0)) ∧
      ((clampTo g.w x2 ≤ clampTo g.w x1 ∨ clampTo g.h y2 ≤ clampTo g.h y1) →
        _apply_roi g (some r) = (g, 0, 0)) ∧
      (clampTo g.w x1 < clampTo g.w x2 → clampTo g.h y1 < clampTo g.h y2 →
        _apply_roi g (some r) =
          (cropG g (clampTo g.w x1) (clampTo g.h y1) (clampTo g.w x2)
            (clampTo g.h y2), clampTo g.w x1, clampTo g.h y1) ∧
        0 ≤ clampTo g.w x1 ∧ clampTo g.w x2 ≤ (g.w : Int) ∧
        0 ≤ clampTo g.h y1 ∧ clampTo g.h y2 ≤ (g.h : Int) ∧
        0 < (cropG g (clampTo g.w x1) (clampTo g.h y1) (clampTo g.w x2)
          (clampTo g.h y2)).w ∧
        0 < (cropG g (clampTo g.w x1) (clampTo g.h y1) (clampTo g.w x2)
          (clampTo g.h y2)).h) := by
  intro g r x1 y1 x2 y2 hbox
  refine ⟨rfl, ?_, ?_⟩
  · intro hdeg
    simp only [_apply_roi, hbox]
    rw [if_pos hdeg]
  · intro h1 h2
    simp only [_apply_roi, hbox]
    rw [if_neg (by omega)]
    refine ⟨rfl, clampTo_nonneg _ _, clampTo_le _ _ (Int.natCast_nonneg g.w),
      clampTo_nonneg _ _, clampTo_le _ _ (Int.natCast_nonneg g.h), ?_, ?_⟩
    · simp only [cropG]
      omega
    · simp only [cropG]
      omega

/-- C9 witness: a reversed absolute box degrades to the whole image. -/
theorem C9_witness :
    _apply_roi g0 (some (Roi.abs 15 8 2 3)) = (g0, 0, 0) :=
  ((C9_apply_roi_degrades_or_crops g0 (Roi.abs 15 8 2 3) 15 8 2 3 rfl).2.1
    (Or.inl (by decide)))

end OneDragon
